import Mathlib

/-!
Verification development for the contract-upload route layer
(`upload_routes.py`): extension validation, local artifact cleanup via
glob patterns, and the four HTTP handlers (upload-evm, upload-non-evm,
GET results, GET results/non-evm).

Strings are modelled as `List Char` (ASCII model of Python's `str`
operations: `lower`, `strip`, `os.path.splitext`, `pathlib` `name`/`stem`,
`fnmatch`/`glob` matching).  The local filesystem is a list of existing
directories plus a list of (directory, filename) pairs; filenames inside
directories contain no path separator.  The remote docker runner
(`remote_docker_api`) is an external collaborator, modelled as an
environment of pure oracles plus an event trace recording each call.
-/

namespace TemBackend

abbrev Str := List Char

/-- Python `str.isspace` on the ASCII whitespace characters
(space, tab, newline, carriage return, vertical tab, form feed). -/
def pyIsSpace (c : Char) : Bool :=
  c == ' ' || c == '\t' || c == '\n' || c == '\r' ||
  c == Char.ofNat 11 || c == Char.ofNat 12

/-- Python `str.strip()`: drop whitespace from both ends. -/
def pyStrip (s : Str) : Str :=
  ((s.dropWhile pyIsSpace).reverse.dropWhile pyIsSpace).reverse

/-- Python `str.lower()` (ASCII model). -/
def pyLower (s : Str) : Str := s.map Char.toLower

/-- `os.path.splitext` (posix): split at the last `.` of the last path
component, provided some non-dot character precedes it within that
component (so leading dots of a hidden file never start an extension).
Returns `(root, ext)` with `p = root ++ ext`. -/
def splitext (p : Str) : Str × Str :=
  let rp := p.reverse
  let nameRev := rp.takeWhile (fun c => !(c == '/'))
  let dirRev := rp.drop nameRev.length
  let afterDotRev := nameRev.takeWhile (fun c => !(c == '.'))
  if afterDotRev.length = nameRev.length then (p, [])
  else
    let baseRev := nameRev.drop (afterDotRev.length + 1)
    if baseRev.any (fun c => !(c == '.')) then
      ((baseRev ++ dirRev).reverse, '.' :: afterDotRev.reverse)
    else (p, [])

/-- The extension component of `os.path.splitext`. -/
def splitextExt (p : Str) : Str := (splitext p).2

/-- Split a path string on `/`, keeping empty pieces (as Python's
`str.split('/')` does). -/
def splitOnSlash : Str → List Str
  | [] => [[]]
  | c :: cs =>
    match splitOnSlash cs with
    | [] => [[]]
    | r :: rs => if c == '/' then [] :: r :: rs else (c :: r) :: rs

/-- `pathlib.PurePosixPath(p).name`: the final path component; empty
components and `.` components are dropped during parsing. -/
def pathName (p : Str) : Str :=
  (((splitOnSlash p).filter
      (fun c => !(c.isEmpty) && !(c == ['.']))).getLast?).getD []

/-- The suffix-removal step of `pathlib` `stem`: drop `name[i:]` for `i`
the last dot index when `0 < i < len(name) - 1`, otherwise keep `name`. -/
def stemOfName (name : Str) : Str :=
  let rname := name.reverse
  let afterDotRev := rname.takeWhile (fun c => !(c == '.'))
  if afterDotRev.length = rname.length then name
  else if afterDotRev.length = 0 then name
  else if afterDotRev.length + 1 = rname.length then name
  else (rname.drop (afterDotRev.length + 1)).reverse

/-- `pathlib.PurePosixPath(p).stem`: the final component without its
suffix. -/
def pathStem (p : Str) : Str := stemOfName (pathName p)

/-- `os.path.join` (posix, two arguments, nonempty head). -/
def pathJoin (a b : Str) : Str :=
  if b.head? == some '/' then b
  else if a == [] || a.getLast? == some '/' then a ++ b
  else a ++ '/' :: b

/-! ## `fnmatch` / `glob` pattern matching

`glob.glob(dir + "/" + pat)` with a literal `dir` lists `dir` and keeps the
names matched by `fnmatch` against `pat`; when `pat` does not start with a
dot, names starting with a dot are skipped (hidden files).  `fnmatch`
compiles `*` to "any sequence", `?` to "any character", and `[...]` to a
character class (`!` negates; an unterminated `[` is a literal `[`). -/

/-- One token of a compiled `fnmatch` pattern. -/
inductive GlobTok where
  | lit (c : Char)
  | any
  | star
  | cls (neg : Bool) (ranges : List (Char × Char))
deriving DecidableEq

/-- Length of the class-body part a scan must skip before searching for the
closing `]`: a leading `!`, then a leading `]`, belong to the body. -/
def classSkip (cs : Str) : Nat :=
  match cs with
  | '!' :: ']' :: _ => 2
  | '!' :: _ => 1
  | ']' :: _ => 1
  | _ => 0

/-- Split the text after a `[` into the class body and the remainder after
the closing `]`; a leading `!` and then a leading `]` belong to the body.
`none` when no closing `]` exists (the `[` is then a literal). -/
def classSplit (cs : Str) : Option (Str × Str) :=
  let rest0 := cs.drop (classSkip cs)
  let t := rest0.takeWhile (fun c => !(c == ']'))
  if t.length = rest0.length then none
  else some (cs.take (classSkip cs) ++ t, rest0.drop (t.length + 1))

/-- Parse a class body (negation marker already removed) into ranges:
`a-b` is a range when a character follows the dash, otherwise characters
stand for themselves. -/
def parseRanges : Str → List (Char × Char)
  | [] => []
  | a :: '-' :: b :: rest => (a, b) :: parseRanges rest
  | a :: rest => (a, a) :: parseRanges rest

/-- Build a class token from the body between `[` and `]`. -/
def mkCls (stuff : Str) : GlobTok :=
  match stuff with
  | '!' :: body => .cls true (parseRanges body)
  | body => .cls false (parseRanges body)

/-- Compile an `fnmatch` pattern into tokens; the fuel argument (any bound
on the pattern length) keeps the recursion structural. -/
def parseGlobF : Nat → Str → List GlobTok
  | 0, _ => []
  | _ + 1, [] => []
  | fuel + 1, c :: cs =>
    if c = '*' then .star :: parseGlobF fuel cs
    else if c = '?' then .any :: parseGlobF fuel cs
    else if c = '[' then
      match classSplit cs with
      | none => .lit '[' :: parseGlobF fuel cs
      | some (stuff, rest) => mkCls stuff :: parseGlobF fuel rest
    else .lit c :: parseGlobF fuel cs

/-- Compile an `fnmatch` pattern into tokens. -/
def parseGlob (pat : Str) : List GlobTok := parseGlobF pat.length pat

/-- Does a single non-star token match a character? -/
def tokMatch : GlobTok → Char → Bool
  | .lit a, c => a == c
  | .any, _ => true
  | .star, _ => true
  | .cls neg rs, c => neg != rs.any (fun ab => decide (ab.1 ≤ c ∧ c ≤ ab.2))

/-- Match the rest of the pattern (as the continuation `k`) against every
suffix of the string: the semantics of `*`. -/
def goStar (k : Str → Bool) : Str → Bool
  | [] => k []
  | c :: s => k (c :: s) || goStar k s

/-- Full-match of a token list against a string (`re.match(... + r"\Z")`). -/
def globMatchTok : List GlobTok → Str → Bool
  | [], s => s.isEmpty
  | .star :: ps, s => goStar (globMatchTok ps) s
  | _ :: _, [] => false
  | p :: ps, c :: s => tokMatch p c && globMatchTok ps s

/-- `fnmatch.fnmatch name pat` (posix: case sensitive). -/
def globMatch (pat name : Str) : Bool := globMatchTok (parseGlob pat) name

/-- The name-level test `glob` applies inside a directory: the hidden-file
rule, then `fnmatch`. -/
def globNameMatch (pat name : Str) : Bool :=
  (pat.head? == some '.' || !(name.head? == some '.')) && globMatch pat name

/-- A string free of the glob metacharacters `*`, `?`, `[`: for such a
contract base name the pattern `<base>*` is a plain prefix test. -/
def noMagic (s : Str) : Bool := s.all (fun c => !(c == '*' || c == '?' || c == '['))

/-! ## Local filesystem model

Directories are path strings; files are (directory, name) pairs with the
name free of `/`.  `os.remove` may fail on any file of `fl` (the failure
environment); `cleanup_old_artifacts` swallows such failures. -/

structure FS where
  dirs : List Str
  files : List (Str × Str)
deriving DecidableEq

/-- `os.makedirs(d, exist_ok=True)`. -/
def makedirs (d : Str) (fs : FS) : FS :=
  if fs.dirs.contains d then fs else { fs with dirs := fs.dirs ++ [d] }

/-- `glob.glob(d + "/" + pat)` for a literal directory `d` and a one-component
pattern `pat`: the matching names inside `d`. -/
def globDir (fs : FS) (d pat : Str) : List Str :=
  (fs.files.filter (fun p => p.1 == d && globNameMatch pat p.2)).map Prod.snd

/-- `try: os.remove(path) except: pass` — deletes the file unless the
environment makes this removal fail (or it is already gone). -/
def tryRemove (fl : List (Str × Str)) (fs : FS) (p : Str × Str) : FS :=
  if fl.contains p then fs else { fs with files := fs.files.filter (fun q => !(q == p)) }

/-! ## Embedding of `upload_routes.py` -/

def ALLOWED_EVM_EXTENSIONS : List Str := [".sol".data, ".txt".data]
def ALLOWED_NON_EVM_EXTENSIONS : List Str := [".rs".data, ".wasm".data]

structure HTTPException where
  status : Nat
  detail : Str
deriving DecidableEq

/-- `validate_extension`: lowercase the `splitext` extension and raise
HTTP 400 unless it is in the allow-set. -/
def validate_extension (filename : Str) (allowed_extensions : List Str) :
    Except HTTPException Unit :=
  let ext := pyLower (splitext filename).2
  if allowed_extensions.contains ext then Except.ok ()
  else Except.error ⟨400, "File type ".data ++ ext ++ " not allowed.".data⟩

/-- `cleanup_old_artifacts`: ensure the two type-scoped directories exist,
then best-effort delete every file in them matching `contract_name ++ "*"`. -/
def cleanup_old_artifacts (contract_name contract_type : Str)
    (fl : List (Str × Str)) (fs : FS) : FS :=
  let local_input_dir := pathJoin "uploaded_contracts".data contract_type
  let local_report_dir := pathJoin "test_summaries".data contract_type
  let fs1 := makedirs local_input_dir fs
  let fs2 := makedirs local_report_dir fs1
  [(local_input_dir, contract_name ++ ['*']),
   (local_report_dir, contract_name ++ ['*'])].foldl
    (fun acc dp =>
      (globDir acc dp.1 dp.2).foldl (fun a n => tryRemove fl a (dp.1, n)) acc)
    fs2

/-- A JSON value: strings and objects are all this API produces. -/
inductive Json where
  | str : Str → Json
  | obj : List (Str × Json) → Json

/-- An uploaded multipart file: its client-supplied filename and bytes. -/
structure UploadFileM where
  filename : Str
  content : List Nat

/-- The external `remote_docker_api` collaborator, as pure oracles:
`trigger filename type` returns the docker logs and
`fetch report_filename type` returns the report content. -/
structure RemoteEnv where
  trigger : Str → Str → Str
  fetch : Str → Str → Str

/-- One observable step of a handler run. -/
inductive Event where
  | cleanup (contract_name contract_type : Str)
  | readFile (filename : Str)
  | remoteUpload (contents : List Nat) (filename contract_type : Str)
  | triggerTest (filename contract_type : Str)
  | fetchReport (report_filename contract_type : Str)

/-- A `fastapi.responses.JSONResponse`: body plus extra headers. -/
structure JSONResponse where
  content : Json
  headers : List (Str × Str)

/-- `process_evm_contract` (dummy processor; ignores the bytes). -/
def process_evm_contract (_file_contents : List Nat) (filename : Str) : Json :=
  Json.obj [("contract_type".data, Json.str "evm".data),
            ("filename".data, Json.str filename),
            ("status".data, Json.str "processed".data)]

/-- `process_non_evm_contract` (dummy processor; ignores the bytes). -/
def process_non_evm_contract (_file_contents : List Nat) (filename : Str) : Json :=
  Json.obj [("contract_type".data, Json.str "non-evm".data),
            ("filename".data, Json.str filename),
            ("status".data, Json.str "processed".data)]

/-- `POST /upload-evm`: validate, clean up, read, upload to the remote
runner, trigger the docker test, fetch the derived report, respond.
Returns the final filesystem, the trace of effects, and either the raised
`HTTPException` or the `JSONResponse`. -/
def upload_evm_contract (contract_file : UploadFileM) (env : RemoteEnv)
    (fl : List (Str × Str)) (fs : FS) :
    FS × List Event × Except HTTPException JSONResponse :=
  match validate_extension contract_file.filename ALLOWED_EVM_EXTENSIONS with
  | Except.error e => (fs, [], Except.error e)
  | Except.ok _ =>
    let base_name := pyLower (pyStrip (pathStem contract_file.filename))
    let fs1 := cleanup_old_artifacts base_name "evm".data fl fs
    let contents := contract_file.content
    let logs := env.trigger contract_file.filename "evm".data
    let report_filename := base_name ++ "-report.md".data
    let aggregated_content := env.fetch report_filename "evm".data
    let result := process_evm_contract contents contract_file.filename
    (fs1,
     [Event.cleanup base_name "evm".data,
      Event.readFile contract_file.filename,
      Event.remoteUpload contents contract_file.filename "evm".data,
      Event.triggerTest contract_file.filename "evm".data,
      Event.fetchReport report_filename "evm".data],
     Except.ok
       { content := Json.obj
           [("message".data, Json.str "EVM contract processed".data),
            ("filename".data, Json.str contract_file.filename),
            ("docker_logs".data, Json.str logs),
            ("aggregated_report".data, Json.str aggregated_content),
            ("details".data, result)],
         headers := [] })

/-- `POST /upload-non-evm`: same pipeline with the non-EVM allow-set,
directories and type tag. -/
def upload_non_evm_contract (contract_file : UploadFileM) (env : RemoteEnv)
    (fl : List (Str × Str)) (fs : FS) :
    FS × List Event × Except HTTPException JSONResponse :=
  match validate_extension contract_file.filename ALLOWED_NON_EVM_EXTENSIONS with
  | Except.error e => (fs, [], Except.error e)
  | Except.ok _ =>
    let base_name := pyLower (pyStrip (pathStem contract_file.filename))
    let fs1 := cleanup_old_artifacts base_name "non-evm".data fl fs
    let contents := contract_file.content
    let logs := env.trigger contract_file.filename "non-evm".data
    let report_filename := base_name ++ "-report.md".data
    let aggregated_content := env.fetch report_filename "non-evm".data
    let result := process_non_evm_contract contents contract_file.filename
    (fs1,
     [Event.cleanup base_name "non-evm".data,
      Event.readFile contract_file.filename,
      Event.remoteUpload contents contract_file.filename "non-evm".data,
      Event.triggerTest contract_file.filename "non-evm".data,
      Event.fetchReport report_filename "non-evm".data],
     Except.ok
       { content := Json.obj
           [("message".data, Json.str "Non-EVM contract processed".data),
            ("filename".data, Json.str contract_file.filename),
            ("docker_logs".data, Json.str logs),
            ("aggregated_report".data, Json.str aggregated_content),
            ("details".data, result)],
         headers := [] })

/-- `GET /results/{filename}`: fetch the derived report from the remote
runner and respond with no-cache headers. -/
def get_test_results (filename : Str) (env : RemoteEnv) :
    List Event × JSONResponse :=
  let base := pyLower (pyStrip (pathStem filename))
  let report_filename := base ++ "-report.md".data
  let aggregated := env.fetch report_filename "evm".data
  ([Event.fetchReport report_filename "evm".data],
   { content := Json.obj
       [("filename".data, Json.str filename),
        ("aggregated_report".data, Json.str aggregated)],
     headers := [("Cache-Control".data,
                  "no-store, no-cache, must-revalidate, max-age=0".data)] })

/-- `GET /results/non-evm/{filename}`: the non-EVM variant. -/
def get_non_evm_test_results (filename : Str) (env : RemoteEnv) :
    List Event × JSONResponse :=
  let base := pyLower (pyStrip (pathStem filename))
  let report_filename := base ++ "-report.md".data
  let aggregated := env.fetch report_filename "non-evm".data
  ([Event.fetchReport report_filename "non-evm".data],
   { content := Json.obj
       [("filename".data, Json.str filename),
        ("aggregated_report".data, Json.str aggregated)],
     headers := [("Cache-Control".data,
                  "no-store, no-cache, must-revalidate, max-age=0".data)] })

/-- The report-name derivation every handler performs:
`Path(filename).stem.strip().lower() + "-report.md"`. -/
def reportFilename (filename : Str) : Str :=
  pyLower (pyStrip (pathStem filename)) ++ "-report.md".data

/-- The uploads directory for a contract type. -/
def uploadDir (contract_type : Str) : Str :=
  pathJoin "uploaded_contracts".data contract_type

/-- The reports directory for a contract type. -/
def summariesDir (contract_type : Str) : Str :=
  pathJoin "test_summaries".data contract_type

/-- A remote environment whose oracles return empty strings (used to
instantiate universally quantified statements at a concrete input). -/
def envNull : RemoteEnv := ⟨fun _ _ => [], fun _ _ => []⟩

/-- The empty filesystem. -/
def fsEmpty : FS := ⟨[], []⟩

/-- A filesystem holding one hidden file in the EVM uploads directory. -/
def fsHidden : FS :=
  ⟨["uploaded_contracts/evm".data, "test_summaries/evm".data],
   [("uploaded_contracts/evm".data, ".h".data)]⟩

/-- A filesystem holding the file `ab` in the EVM uploads directory. -/
def fsQ : FS :=
  ⟨["uploaded_contracts/evm".data, "test_summaries/evm".data],
   [("uploaded_contracts/evm".data, "ab".data)]⟩

/-- A filesystem holding files `ab` and `ac` in the EVM uploads directory. -/
def fsAB : FS :=
  ⟨[], [("uploaded_contracts/evm".data, "ab".data),
        ("uploaded_contracts/evm".data, "ac".data)]⟩

/-! ## Evaluation checks on concrete inputs -/

example : splitext "X.SOL".data = ("X".data, ".SOL".data) := by decide
example : splitext "a.".data = ("a".data, ".".data) := by decide
example : splitext "...".data = ("...".data, []) := by decide
example : splitext ".sol".data = (".sol".data, []) := by decide
example : splitext "a/b.c/d".data = ("a/b.c/d".data, []) := by decide
example : splitext "..a.b".data = ("..a".data, ".b".data) := by decide
example : pathName "a/b/".data = "b".data := by decide
example : pathName "..".data = "..".data := by decide
example : pathName "a/./b".data = "b".data := by decide
example : pathName "/".data = [] := by decide
example : pathStem " .sol".data = " ".data := by decide
example : pathStem ".sol".data = ".sol".data := by decide
example : pathStem "a.".data = "a.".data := by decide
example : pathStem "MyToken.sol".data = "MyToken".data := by decide
example : pathStem "a.b.c".data = "a.b".data := by decide
example : pyStrip " MyToken ".data = "MyToken".data := by decide
example : pathJoin "uploaded_contracts".data "evm".data
    = "uploaded_contracts/evm".data := by decide

example : globMatch "a?*".data "ab".data = true := by decide
example : globMatch "a?*".data "a?x".data = true := by decide
example : globMatch "a[b]*".data "a[b]".data = false := by decide
example : globMatch "a[bc]*".data "abx".data = true := by decide
example : globMatch "[".data "[".data = true := by decide
example : globMatch "[".data "x".data = false := by decide
example : globMatch "[]]".data "]".data = true := by decide
example : globMatch "[]]]".data "a]".data = false := by decide
example : globMatch "a[!b]*".data "acx".data = true := by decide
example : globMatch "a[!b]*".data "abx".data = false := by decide
example : globNameMatch "*".data ".hidden".data = false := by decide
example : globNameMatch ".s*".data ".sol".data = true := by decide
example : globNameMatch "mytoken*".data "mytoken-report.md".data = true := by decide

example : reportFilename "MyToken.sol".data = "mytoken-report.md".data := by decide
example : reportFilename " MyToken .SOL".data = "mytoken-report.md".data := by decide

/-- **C5** The two GET results handlers always answer with the header
`Cache-Control: no-store, no-cache, must-revalidate, max-age=0` and a body
holding exactly the keys `filename` (the request's filename unchanged) and
`aggregated_report` (the content fetched from the remote runner for the
derived report name). -/
theorem results_nocache_headers_and_body (filename : Str) (env : RemoteEnv) :
    get_test_results filename env =
      ([Event.fetchReport (reportFilename filename) "evm".data],
       { content := Json.obj
           [("filename".data, Json.str filename),
            ("aggregated_report".data,
             Json.str (env.fetch (reportFilename filename) "evm".data))],
         headers := [("Cache-Control".data,
                      "no-store, no-cache, must-revalidate, max-age=0".data)] })
  ∧ get_non_evm_test_results filename env =
      ([Event.fetchReport (reportFilename filename) "non-evm".data],
       { content := Json.obj
           [("filename".data, Json.str filename),
            ("aggregated_report".data,
             Json.str (env.fetch (reportFilename filename) "non-evm".data))],
         headers := [("Cache-Control".data,
                      "no-store, no-cache, must-revalidate, max-age=0".data)] }) :=
  ⟨rfl, rfl⟩

/-- **C9** The `details` value of a successful upload response does not
depend on the uploaded bytes: the whole response is unchanged when only the
contents differ, and the dummy processors return exactly
`{"contract_type": <type>, "filename": <filename>, "status": "processed"}`. -/
theorem upload_details_content_independent (f : Str) (c c' : List Nat)
    (env : RemoteEnv) (fl : List (Str × Str)) (fs : FS) :
    (upload_evm_contract ⟨f, c⟩ env fl fs).2.2
      = (upload_evm_contract ⟨f, c'⟩ env fl fs).2.2
  ∧ (upload_non_evm_contract ⟨f, c⟩ env fl fs).2.2
      = (upload_non_evm_contract ⟨f, c'⟩ env fl fs).2.2
  ∧ process_evm_contract c f = Json.obj
      [("contract_type".data, Json.str "evm".data),
       ("filename".data, Json.str f),
       ("status".data, Json.str "processed".data)]
  ∧ process_non_evm_contract c f = Json.obj
      [("contract_type".data, Json.str "non-evm".data),
       ("filename".data, Json.str f),
       ("status".data, Json.str "processed".data)] := by
  refine ⟨?_, ?_, rfl, rfl⟩
  · cases h : validate_extension f ALLOWED_EVM_EXTENSIONS <;>
      simp [upload_evm_contract, h, process_evm_contract]
  · cases h : validate_extension f ALLOWED_NON_EVM_EXTENSIONS <;>
      simp [upload_non_evm_contract, h, process_non_evm_contract]

/-- **C7** On a disallowed extension the upload handlers raise HTTP 400
before any side effect: the filesystem is returned unchanged (no directory
created, no file deleted) and the event trace is empty (no remote upload,
test trigger, or report fetch). -/
theorem upload_invalid_ext_no_side_effects (cf : UploadFileM) (env : RemoteEnv)
    (fl : List (Str × Str)) (fs : FS) :
    (ALLOWED_EVM_EXTENSIONS.contains (pyLower (splitext cf.filename).2) = false →
      upload_evm_contract cf env fl fs =
        (fs, [], Except.error ⟨400,
          "File type ".data ++ pyLower (splitext cf.filename).2 ++ " not allowed.".data⟩))
  ∧ (ALLOWED_NON_EVM_EXTENSIONS.contains (pyLower (splitext cf.filename).2) = false →
      upload_non_evm_contract cf env fl fs =
        (fs, [], Except.error ⟨400,
          "File type ".data ++ pyLower (splitext cf.filename).2 ++ " not allowed.".data⟩)) := by
  constructor <;> intro h <;> simp at h <;>
    simp [upload_evm_contract, upload_non_evm_contract, validate_extension, h]

/-- Witness for `upload_invalid_ext_no_side_effects` at `virus.exe`. -/
theorem upload_invalid_ext_no_side_effects_witness :
    ALLOWED_EVM_EXTENSIONS.contains
        (pyLower (splitext ("virus.exe".data : Str)).2) = false
  ∧ upload_evm_contract ⟨"virus.exe".data, []⟩ envNull [] fsEmpty =
      (fsEmpty, [], Except.error ⟨400,
        "File type ".data ++ pyLower (splitext ("virus.exe".data : Str)).2
          ++ " not allowed.".data⟩) :=
  ⟨by decide,
   (upload_invalid_ext_no_side_effects ⟨"virus.exe".data, []⟩ envNull [] fsEmpty).1
     (by decide)⟩

/-- **C3** For an upload passing extension validation, the handler performs
exactly: cleanup of the base name's artifacts, file read, remote upload of
the bytes, docker test trigger, and fetch of the `<base>-report.md` report,
in this order, and answers with a body holding exactly the keys `message`,
`filename` (unchanged), `docker_logs` (the trigger's value),
`aggregated_report` (the fetched content) and `details`. -/
theorem upload_pipeline_on_valid (cf : UploadFileM) (env : RemoteEnv)
    (fl : List (Str × Str)) (fs : FS) :
    (validate_extension cf.filename ALLOWED_EVM_EXTENSIONS = Except.ok () →
      upload_evm_contract cf env fl fs =
        (cleanup_old_artifacts (pyLower (pyStrip (pathStem cf.filename)))
           "evm".data fl fs,
         [Event.cleanup (pyLower (pyStrip (pathStem cf.filename))) "evm".data,
          Event.readFile cf.filename,
          Event.remoteUpload cf.content cf.filename "evm".data,
          Event.triggerTest cf.filename "evm".data,
          Event.fetchReport (reportFilename cf.filename) "evm".data],
         Except.ok
           { content := Json.obj
               [("message".data, Json.str "EVM contract processed".data),
                ("filename".data, Json.str cf.filename),
                ("docker_logs".data, Json.str (env.trigger cf.filename "evm".data)),
                ("aggregated_report".data,
                 Json.str (env.fetch (reportFilename cf.filename) "evm".data)),
                ("details".data, process_evm_contract cf.content cf.filename)],
             headers := [] }))
  ∧ (validate_extension cf.filename ALLOWED_NON_EVM_EXTENSIONS = Except.ok () →
      upload_non_evm_contract cf env fl fs =
        (cleanup_old_artifacts (pyLower (pyStrip (pathStem cf.filename)))
           "non-evm".data fl fs,
         [Event.cleanup (pyLower (pyStrip (pathStem cf.filename))) "non-evm".data,
          Event.readFile cf.filename,
          Event.remoteUpload cf.content cf.filename "non-evm".data,
          Event.triggerTest cf.filename "non-evm".data,
          Event.fetchReport (reportFilename cf.filename) "non-evm".data],
         Except.ok
           { content := Json.obj
               [("message".data, Json.str "Non-EVM contract processed".data),
                ("filename".data, Json.str cf.filename),
                ("docker_logs".data, Json.str (env.trigger cf.filename "non-evm".data)),
                ("aggregated_report".data,
                 Json.str (env.fetch (reportFilename cf.filename) "non-evm".data)),
                ("details".data, process_non_evm_contract cf.content cf.filename)],
             headers := [] })) := by
  constructor <;> intro h <;>
    simp [upload_evm_contract, upload_non_evm_contract, h, reportFilename]

/-- Witness for `upload_pipeline_on_valid` at `a.sol`. -/
theorem upload_pipeline_on_valid_witness :
    validate_extension ("a.sol".data : Str) ALLOWED_EVM_EXTENSIONS = Except.ok ()
  ∧ upload_evm_contract ⟨"a.sol".data, [7]⟩ envNull [] fsEmpty =
      (cleanup_old_artifacts (pyLower (pyStrip (pathStem ("a.sol".data : Str))))
         "evm".data [] fsEmpty,
       [Event.cleanup (pyLower (pyStrip (pathStem ("a.sol".data : Str)))) "evm".data,
        Event.readFile "a.sol".data,
        Event.remoteUpload [7] "a.sol".data "evm".data,
        Event.triggerTest "a.sol".data "evm".data,
        Event.fetchReport (reportFilename "a.sol".data) "evm".data],
       Except.ok
         { content := Json.obj
             [("message".data, Json.str "EVM contract processed".data),
              ("filename".data, Json.str "a.sol".data),
              ("docker_logs".data, Json.str (envNull.trigger "a.sol".data "evm".data)),
              ("aggregated_report".data,
               Json.str (envNull.fetch (reportFilename "a.sol".data) "evm".data)),
              ("details".data, process_evm_contract [7] "a.sol".data)],
           headers := [] }) :=
  ⟨rfl, (upload_pipeline_on_valid ⟨"a.sol".data, [7]⟩ envNull [] fsEmpty).1 rfl⟩

/-- **C1 (counterexample)** `X.SOL` has extension `.SOL`, which is not in
the stated EVM allow-set, yet upload-evm accepts it — acceptance is not
"exactly when the filename's extension is in the allow-set". -/
theorem upload_accepts_unlisted_uppercase_ext :
    (upload_evm_contract ⟨"X.SOL".data, []⟩ envNull [] fsEmpty).2.2.isOk = true
  ∧ ALLOWED_EVM_EXTENSIONS.contains (splitext ("X.SOL".data : Str)).2 = false := by
  constructor <;> decide

/-- **C1 (amended)** An upload handler accepts exactly when the lowercased
`splitext` extension of the filename is in its allow-set; otherwise
`validate_extension` raises HTTP 400 with detail
`File type <ext> not allowed.` where `<ext>` is the lowercased extension. -/
theorem upload_accepts_iff_lowercased_ext_allowed (cf : UploadFileM)
    (env : RemoteEnv) (fl : List (Str × Str)) (fs : FS) :
    (upload_evm_contract cf env fl fs).2.2.isOk
      = ALLOWED_EVM_EXTENSIONS.contains (pyLower (splitext cf.filename).2)
  ∧ (upload_non_evm_contract cf env fl fs).2.2.isOk
      = ALLOWED_NON_EVM_EXTENSIONS.contains (pyLower (splitext cf.filename).2)
  ∧ (∀ allowed : List Str,
      allowed.contains (pyLower (splitext cf.filename).2) = false →
      validate_extension cf.filename allowed =
        Except.error ⟨400,
          "File type ".data ++ pyLower (splitext cf.filename).2
            ++ " not allowed.".data⟩) := by
  refine ⟨?_, ?_, ?_⟩
  · by_cases h : pyLower (splitext cf.filename).2 ∈ ALLOWED_EVM_EXTENSIONS <;>
      simp [upload_evm_contract, validate_extension, h, Except.isOk, Except.toBool]
  · by_cases h : pyLower (splitext cf.filename).2 ∈ ALLOWED_NON_EVM_EXTENSIONS <;>
      simp [upload_non_evm_contract, validate_extension, h, Except.isOk, Except.toBool]
  · intro allowed h
    simp at h
    simp [validate_extension, h]

/-- Witness for `upload_accepts_iff_lowercased_ext_allowed` at `a.wasm`. -/
theorem upload_accepts_iff_lowercased_ext_allowed_witness :
    (upload_evm_contract ⟨"a.wasm".data, []⟩ envNull [] fsEmpty).2.2.isOk
      = ALLOWED_EVM_EXTENSIONS.contains (pyLower (splitext ("a.wasm".data : Str)).2)
  ∧ ALLOWED_EVM_EXTENSIONS.contains (pyLower (splitext ("a.wasm".data : Str)).2) = false
  ∧ validate_extension ("a.wasm".data : Str) ALLOWED_EVM_EXTENSIONS =
      Except.error ⟨400,
        "File type ".data ++ pyLower (splitext ("a.wasm".data : Str)).2
          ++ " not allowed.".data⟩ :=
  ⟨(upload_accepts_iff_lowercased_ext_allowed ⟨"a.wasm".data, []⟩ envNull [] fsEmpty).1,
   by decide,
   (upload_accepts_iff_lowercased_ext_allowed ⟨"a.wasm".data, []⟩ envNull [] fsEmpty).2.2
     ALLOWED_EVM_EXTENSIONS (by decide)⟩

/-! ## Glob and cleanup lemmas -/

theorem parseGlobF_nil : ∀ fuel, parseGlobF fuel [] = []
  | 0 => rfl
  | _ + 1 => rfl

theorem parseGlobF_lit_star :
    ∀ (base : Str) (fuel : Nat), base.length < fuel → noMagic base = true →
      parseGlobF fuel (base ++ ['*']) = base.map GlobTok.lit ++ [GlobTok.star]
  | [], fuel, hf, _ => by
    match fuel, hf with
    | f + 1, _ => simp [parseGlobF, parseGlobF_nil]
  | c :: bs, fuel, hf, hm => by
    match fuel, hf with
    | f + 1, hf =>
      have hm' : (!(c == '*' || c == '?' || c == '[')) = true ∧ noMagic bs = true := by
        simpa [noMagic, List.all_cons] using hm
      obtain ⟨⟨h1, h2⟩, h3⟩ :=
        (by simpa using hm'.1 : (¬c = '*' ∧ ¬c = '?') ∧ ¬c = '[')
      have hlen : bs.length < f := by
        have := hf; simp only [List.length_cons] at this; omega
      simp only [List.cons_append, parseGlobF, if_neg h1, if_neg h2, if_neg h3,
        List.map_cons, List.cons_append, List.append_eq]
      rw [parseGlobF_lit_star bs f hlen hm'.2]

theorem globMatchTok_star_nil : ∀ s : Str, globMatchTok [GlobTok.star] s = true
  | [] => rfl
  | c :: s => by
    have ih := globMatchTok_star_nil s
    simp only [globMatchTok] at ih ⊢
    simp only [goStar, globMatchTok, List.isEmpty_cons, Bool.false_or]
    exact ih

theorem globMatchTok_lit : ∀ (base name : Str),
    globMatchTok (base.map GlobTok.lit ++ [GlobTok.star]) name = base.isPrefixOf name
  | [], name => by simp [globMatchTok_star_nil]
  | b :: bs, [] => by simp [globMatchTok]
  | b :: bs, c :: s => by
    simp [globMatchTok, tokMatch, globMatchTok_lit bs s, List.isPrefixOf_cons₂]

theorem globMatch_lit_star (base name : Str) (hm : noMagic base = true) :
    globMatch (base ++ ['*']) name = base.isPrefixOf name := by
  unfold globMatch parseGlob
  rw [parseGlobF_lit_star base (base ++ ['*']).length (by simp) hm]
  exact globMatchTok_lit base name

theorem globNameMatch_of_ne_nil (base name : Str) (hm : noMagic base = true)
    (hb : base ≠ []) :
    globNameMatch (base ++ ['*']) name = base.isPrefixOf name := by
  unfold globNameMatch
  rw [globMatch_lit_star base name hm]
  rcases base with _ | ⟨b, bs⟩
  · exact absurd rfl hb
  · rcases name with _ | ⟨c, s⟩
    · simp
    · simp only [List.cons_append, List.head?_cons, List.isPrefixOf_cons₂]
      by_cases hbc : b = c
      · subst hbc
        by_cases hbd : b = '.'
        · subst hbd; simp
        · simp [hbd]
      · simp [hbc]

theorem globNameMatch_nil_base (name : Str) :
    globNameMatch (([] : Str) ++ ['*']) name = !(name.head? == some '.') := by
  unfold globNameMatch
  have h : globMatch (([] : Str) ++ ['*']) name = true := by
    rw [globMatch_lit_star [] name (by decide)]
    simp
  rw [h, Bool.and_true]
  exact Bool.false_or _

theorem makedirs_files (d : Str) (fs : FS) : (makedirs d fs).files = fs.files := by
  unfold makedirs; split <;> rfl

theorem makedirs_dirs_self (d : Str) (fs : FS) : d ∈ (makedirs d fs).dirs := by
  unfold makedirs
  split
  · rename_i h
    simpa using h
  · simp

theorem makedirs_dirs_mono {e : Str} (d : Str) (fs : FS) (he : e ∈ fs.dirs) :
    e ∈ (makedirs d fs).dirs := by
  unfold makedirs
  split
  · exact he
  · simp [he]

theorem tryRemove_dirs (fl : List (Str × Str)) (fs : FS) (p : Str × Str) :
    (tryRemove fl fs p).dirs = fs.dirs := by
  unfold tryRemove; split <;> rfl

theorem foldl_tryRemove_dirs (fl : List (Str × Str)) (d : Str) (L : List Str)
    (fs : FS) :
    (L.foldl (fun a n => tryRemove fl a (d, n)) fs).dirs = fs.dirs := by
  induction L generalizing fs with
  | nil => rfl
  | cons n L ih => rw [List.foldl_cons, ih, tryRemove_dirs]

theorem foldl_tryRemove_files (fl : List (Str × Str)) (d : Str) :
    ∀ (L : List Str) (fs : FS),
      (L.foldl (fun a n => tryRemove fl a (d, n)) fs).files
        = fs.files.filter
            (fun p => !(p.1 == d && L.contains p.2 && !(fl.contains p)))
  | [], fs => by simp
  | n :: L, fs => by
    rw [List.foldl_cons, foldl_tryRemove_files fl d L (tryRemove fl fs (d, n))]
    unfold tryRemove
    split
    · rename_i hf
      have hf' : (d, n) ∈ fl := by simpa using hf
      apply List.filter_congr
      intro p _
      by_cases h1 : p.1 = d
      · by_cases h2 : p.2 = n
        · have hp : p = (d, n) := by cases p; simp_all
          simp [hp, hf', List.contains_cons]
        · simp [h1, h2, List.contains_cons]
      · have hb : (p.1 == d) = false := beq_eq_false_iff_ne.mpr h1
        simp [hb]
    · rename_i hf
      have hf' : (d, n) ∉ fl := by simpa using hf
      rw [List.filter_filter]
      apply List.filter_congr
      intro p _
      by_cases h1 : p.1 = d
      · by_cases h2 : p.2 = n
        · have hp : p = (d, n) := by cases p; simp_all
          simp [hp, hf', List.contains_cons]
        · simp [h1, h2, List.contains_cons, Prod.ext_iff]
      · have hb : (p.1 == d) = false := beq_eq_false_iff_ne.mpr h1
        simp [hb, Prod.ext_iff]
        exact fun h => absurd h h1

theorem globDir_contains_of_mem {fs : FS} {d pat : Str} {p : Str × Str}
    (hp : p ∈ fs.files) (hd : p.1 = d) :
    (globDir fs d pat).contains p.2 = globNameMatch pat p.2 := by
  unfold globDir
  cases hg : globNameMatch pat p.2 with
  | true =>
    have hmem : p.2 ∈ (fs.files.filter
        (fun q => q.1 == d && globNameMatch pat q.2)).map Prod.snd := by
      refine List.mem_map.mpr ⟨p, ?_, rfl⟩
      refine List.mem_filter.mpr ⟨hp, ?_⟩
      simp [hd, hg]
    simpa using hmem
  | false =>
    apply Bool.eq_false_iff.mpr
    intro hc
    have hmem : p.2 ∈ (fs.files.filter
        (fun q => q.1 == d && globNameMatch pat q.2)).map Prod.snd := by
      simpa using hc
    obtain ⟨q, hq, he⟩ := List.mem_map.mp hmem
    have hq2 := (List.mem_filter.mp hq).2
    rw [he] at hq2
    simp [hg] at hq2

theorem glob_fold_files (fl : List (Str × Str)) (d pat : Str) (fs : FS) :
    ((globDir fs d pat).foldl (fun a n => tryRemove fl a (d, n)) fs).files
      = fs.files.filter
          (fun p => !(p.1 == d && globNameMatch pat p.2 && !(fl.contains p))) := by
  rw [foldl_tryRemove_files]
  apply List.filter_congr
  intro p hp
  by_cases hd : p.1 = d
  · rw [globDir_contains_of_mem hp hd]
  · have hb : (p.1 == d) = false := beq_eq_false_iff_ne.mpr hd
    simp [hb]

theorem pass_combine (a b g n : Bool) :
    ((!(b && g && n)) && (!(a && g && n))) = !((a || b) && g && n) := by
  cases a <;> cases b <;> cases g <;> cases n <;> rfl

theorem cleanup_files (contract_name contract_type : Str)
    (fl : List (Str × Str)) (fs : FS) :
    (cleanup_old_artifacts contract_name contract_type fl fs).files
      = fs.files.filter
          (fun p =>
            !((p.1 == uploadDir contract_type || p.1 == summariesDir contract_type)
              && globNameMatch (contract_name ++ ['*']) p.2
              && !(fl.contains p))) := by
  unfold cleanup_old_artifacts uploadDir summariesDir
  simp only [List.foldl_cons, List.foldl_nil]
  rw [glob_fold_files, glob_fold_files, makedirs_files, makedirs_files,
    List.filter_filter]
  apply List.filter_congr
  intro p _
  exact pass_combine _ _ _ _

theorem cleanup_dirs (contract_name contract_type : Str)
    (fl : List (Str × Str)) (fs : FS) :
    (cleanup_old_artifacts contract_name contract_type fl fs).dirs
      = (makedirs (summariesDir contract_type)
          (makedirs (uploadDir contract_type) fs)).dirs := by
  unfold cleanup_old_artifacts uploadDir summariesDir
  simp only [List.foldl_cons, List.foldl_nil]
  rw [foldl_tryRemove_dirs, foldl_tryRemove_dirs]

/-- **C4 (counterexample)** With the empty contract base name (reachable
from the filename `"   .sol"`, whose stripped stem is empty), the glob
pattern is `*`, which skips hidden files: `.h` starts with the empty base
name yet survives cleanup. -/
theorem cleanup_skips_hidden_file_on_empty_base :
    (([] : Str).isPrefixOf ".h".data) = true
  ∧ ("uploaded_contracts/evm".data, ".h".data)
      ∈ (cleanup_old_artifacts [] "evm".data [] fsHidden).files := by
  constructor
  · decide
  · decide

/-- **C4 (amended)** `cleanup_old_artifacts` deletes, from the two
type-scoped directories, every file whose name matches the glob pattern
`<base>*` — for a metacharacter-free base name this is every file whose
name starts with the base, except that hidden files are skipped when the
base is empty — it never raises, and a failed deletion is silently ignored
while the remaining deletions still run. -/
theorem cleanup_deletes_matching_and_ignores_failures
    (contract_name contract_type : Str) (fl : List (Str × Str)) (fs : FS) :
    (∀ p ∈ fs.files,
      (p.1 = uploadDir contract_type ∨ p.1 = summariesDir contract_type) →
      globNameMatch (contract_name ++ ['*']) p.2 = true →
      fl.contains p = false →
      p ∉ (cleanup_old_artifacts contract_name contract_type fl fs).files)
  ∧ (noMagic contract_name = true →
      ∀ p ∈ fs.files,
      (p.1 = uploadDir contract_type ∨ p.1 = summariesDir contract_type) →
      contract_name.isPrefixOf p.2 = true →
      (contract_name = [] → ¬ p.2.head? = some '.') →
      fl.contains p = false →
      p ∉ (cleanup_old_artifacts contract_name contract_type fl fs).files)
  ∧ (∀ p ∈ fs.files, fl.contains p = true →
      p ∈ (cleanup_old_artifacts contract_name contract_type fl fs).files) := by
  have main : ∀ p ∈ fs.files,
      (p.1 = uploadDir contract_type ∨ p.1 = summariesDir contract_type) →
      globNameMatch (contract_name ++ ['*']) p.2 = true →
      fl.contains p = false →
      p ∉ (cleanup_old_artifacts contract_name contract_type fl fs).files := by
    intro p hp hd hg hfl hmem
    rw [cleanup_files] at hmem
    have h2 := (List.mem_filter.mp hmem).2
    have hd' : (p.1 == uploadDir contract_type
        || p.1 == summariesDir contract_type) = true := by
      rcases hd with h | h <;> simp [h]
    rw [hd', hg, hfl] at h2
    simp at h2
  refine ⟨main, ?_, ?_⟩
  · intro hm p hp hd hpre hhid hfl
    apply main p hp hd ?_ hfl
    by_cases hne : contract_name = []
    · subst hne
      rw [globNameMatch_nil_base]
      simp [hhid rfl]
    · rw [globNameMatch_of_ne_nil _ _ hm hne]
      exact hpre
  · intro p hp hfl
    rw [cleanup_files]
    refine List.mem_filter.mpr ⟨hp, ?_⟩
    have hfl' : p ∈ fl := by simpa using hfl
    simp [hfl']

/-- Witness for `cleanup_deletes_matching_and_ignores_failures`: with base
`a`, the matching file `ab` is deleted while the matching file `ac`, whose
removal fails, survives. -/
theorem cleanup_deletes_matching_and_ignores_failures_witness :
    noMagic "a".data = true
  ∧ ("uploaded_contracts/evm".data, "ab".data)
      ∉ (cleanup_old_artifacts "a".data "evm".data
          [("uploaded_contracts/evm".data, "ac".data)] fsAB).files
  ∧ ("uploaded_contracts/evm".data, "ac".data)
      ∈ (cleanup_old_artifacts "a".data "evm".data
          [("uploaded_contracts/evm".data, "ac".data)] fsAB).files :=
  ⟨by decide,
   (cleanup_deletes_matching_and_ignores_failures "a".data "evm".data
       [("uploaded_contracts/evm".data, "ac".data)] fsAB).2.1 (by decide)
     ("uploaded_contracts/evm".data, "ab".data) (by decide)
     (Or.inl (by decide)) (by decide) (fun h => absurd h (by decide)) (by decide),
   (cleanup_deletes_matching_and_ignores_failures "a".data "evm".data
       [("uploaded_contracts/evm".data, "ac".data)] fsAB).2.2
     ("uploaded_contracts/evm".data, "ac".data) (by decide) (by decide)⟩

/-- **C6** Uploading `MyToken.sol` to upload-evm accepts the file, deletes
exactly the files of `uploaded_contracts/evm` and `test_summaries/evm`
whose names start with `mytoken`, and fetches the report
`mytoken-report.md` from the remote runner after the cleanup. -/
theorem upload_mytoken_cleanup_and_report (content : List Nat)
    (env : RemoteEnv) (fs : FS) :
    (upload_evm_contract ⟨"MyToken.sol".data, content⟩ env [] fs).2.2.isOk = true
  ∧ (upload_evm_contract ⟨"MyToken.sol".data, content⟩ env [] fs).1.files
      = fs.files.filter
          (fun p =>
            !((p.1 == uploadDir "evm".data || p.1 == summariesDir "evm".data)
              && "mytoken".data.isPrefixOf p.2))
  ∧ (upload_evm_contract ⟨"MyToken.sol".data, content⟩ env [] fs).2.1
      = [Event.cleanup "mytoken".data "evm".data,
         Event.readFile "MyToken.sol".data,
         Event.remoteUpload content "MyToken.sol".data "evm".data,
         Event.triggerTest "MyToken.sol".data "evm".data,
         Event.fetchReport "mytoken-report.md".data "evm".data] := by
  refine ⟨rfl, ?_, rfl⟩
  have h1 : (upload_evm_contract ⟨"MyToken.sol".data, content⟩ env [] fs).1
      = cleanup_old_artifacts "mytoken".data "evm".data [] fs := rfl
  rw [h1, cleanup_files]
  apply List.filter_congr
  intro p _
  rw [globNameMatch_of_ne_nil "mytoken".data p.2 (by decide) (by decide)]
  simp

/-- **C8 (counterexample)** With base name `a?` (reachable from the
filename `A?.sol`), cleanup deletes the file `ab`, whose name does not
start with `a?`: glob metacharacters in the base over-delete. -/
theorem cleanup_deletes_nonprefixed_on_magic_base :
    ("a?".data.isPrefixOf "ab".data) = false
  ∧ (cleanup_old_artifacts "a?".data "evm".data [] fsQ).files = [] := by
  constructor
  · decide
  · decide

/-- **C8 (amended)** `cleanup_old_artifacts` creates the two type-scoped
directories when missing (so both exist after every accepted upload), and
removes no file outside them and none whose name fails the glob pattern
`<base>*` — for a metacharacter-free base, none whose name does not start
with the base. -/
theorem cleanup_creates_dirs_and_frame
    (contract_name contract_type : Str) (fl : List (Str × Str)) (fs : FS) :
    uploadDir contract_type
      ∈ (cleanup_old_artifacts contract_name contract_type fl fs).dirs
  ∧ summariesDir contract_type
      ∈ (cleanup_old_artifacts contract_name contract_type fl fs).dirs
  ∧ (cleanup_old_artifacts contract_name contract_type fl fs).dirs
      = (makedirs (summariesDir contract_type)
          (makedirs (uploadDir contract_type) fs)).dirs
  ∧ (∀ p ∈ fs.files, p.1 ≠ uploadDir contract_type →
      p.1 ≠ summariesDir contract_type →
      p ∈ (cleanup_old_artifacts contract_name contract_type fl fs).files)
  ∧ (∀ p ∈ fs.files, globNameMatch (contract_name ++ ['*']) p.2 = false →
      p ∈ (cleanup_old_artifacts contract_name contract_type fl fs).files)
  ∧ (noMagic contract_name = true → ∀ p ∈ fs.files,
      contract_name.isPrefixOf p.2 = false →
      p ∈ (cleanup_old_artifacts contract_name contract_type fl fs).files)
  ∧ (∀ p ∈ (cleanup_old_artifacts contract_name contract_type fl fs).files,
      p ∈ fs.files)
  ∧ (∀ (cf : UploadFileM) (env : RemoteEnv) (fs' : FS),
      (upload_evm_contract cf env fl fs').2.2.isOk = true →
      uploadDir "evm".data ∈ (upload_evm_contract cf env fl fs').1.dirs
      ∧ summariesDir "evm".data ∈ (upload_evm_contract cf env fl fs').1.dirs)
  ∧ (∀ (cf : UploadFileM) (env : RemoteEnv) (fs' : FS),
      (upload_non_evm_contract cf env fl fs').2.2.isOk = true →
      uploadDir "non-evm".data ∈ (upload_non_evm_contract cf env fl fs').1.dirs
      ∧ summariesDir "non-evm".data
          ∈ (upload_non_evm_contract cf env fl fs').1.dirs) := by
  have hglob : ∀ p ∈ fs.files, globNameMatch (contract_name ++ ['*']) p.2 = false →
      p ∈ (cleanup_old_artifacts contract_name contract_type fl fs).files := by
    intro p hp hg
    rw [cleanup_files]
    refine List.mem_filter.mpr ⟨hp, ?_⟩
    simp [hg]
  refine ⟨?_, ?_, cleanup_dirs _ _ _ _, ?_, hglob, ?_, ?_, ?_, ?_⟩
  · rw [cleanup_dirs]
    exact makedirs_dirs_mono _ _ (makedirs_dirs_self _ _)
  · rw [cleanup_dirs]
    exact makedirs_dirs_self _ _
  · intro p hp hd1 hd2
    rw [cleanup_files]
    refine List.mem_filter.mpr ⟨hp, ?_⟩
    have hb1 : (p.1 == uploadDir contract_type) = false :=
      beq_eq_false_iff_ne.mpr hd1
    have hb2 : (p.1 == summariesDir contract_type) = false :=
      beq_eq_false_iff_ne.mpr hd2
    simp [hb1, hb2]
  · intro hm p hp hpre
    apply hglob p hp
    by_cases hne : contract_name = []
    · subst hne
      simp at hpre
    · rw [globNameMatch_of_ne_nil _ _ hm hne]
      exact hpre
  · intro p hmem
    rw [cleanup_files] at hmem
    exact (List.mem_filter.mp hmem).1
  · intro cf env fs' hOk
    rcases hv : validate_extension cf.filename ALLOWED_EVM_EXTENSIONS with e | u
    · have hbad : upload_evm_contract cf env fl fs' = (fs', [], Except.error e) := by
        simp [upload_evm_contract, hv]
      rw [hbad] at hOk
      simp [Except.isOk, Except.toBool] at hOk
    · have hgood : (upload_evm_contract cf env fl fs').1
          = cleanup_old_artifacts (pyLower (pyStrip (pathStem cf.filename)))
              "evm".data fl fs' := by
        simp [upload_evm_contract, hv]
      rw [hgood, cleanup_dirs]
      exact ⟨makedirs_dirs_mono _ _ (makedirs_dirs_self _ _),
             makedirs_dirs_self _ _⟩
  · intro cf env fs' hOk
    rcases hv : validate_extension cf.filename ALLOWED_NON_EVM_EXTENSIONS with e | u
    · have hbad : upload_non_evm_contract cf env fl fs' = (fs', [], Except.error e) := by
        simp [upload_non_evm_contract, hv]
      rw [hbad] at hOk
      simp [Except.isOk, Except.toBool] at hOk
    · have hgood : (upload_non_evm_contract cf env fl fs').1
          = cleanup_old_artifacts (pyLower (pyStrip (pathStem cf.filename)))
              "non-evm".data fl fs' := by
        simp [upload_non_evm_contract, hv]
      rw [hgood, cleanup_dirs]
      exact ⟨makedirs_dirs_mono _ _ (makedirs_dirs_self _ _),
             makedirs_dirs_self _ _⟩

/-- Witness for `cleanup_creates_dirs_and_frame`: with base `x`, the hidden
file `.h`, whose name fails the prefix test, survives cleanup. -/
theorem cleanup_creates_dirs_and_frame_witness :
    uploadDir "evm".data
      ∈ (cleanup_old_artifacts "x".data "evm".data [] fsHidden).dirs
  ∧ ("uploaded_contracts/evm".data, ".h".data)
      ∈ (cleanup_old_artifacts "x".data "evm".data [] fsHidden).files :=
  ⟨(cleanup_creates_dirs_and_frame "x".data "evm".data [] fsHidden).1,
   (cleanup_creates_dirs_and_frame "x".data "evm".data [] fsHidden).2.2.2.2.2.1
     (by decide) ("uploaded_contracts/evm".data, ".h".data) (by decide) (by decide)⟩

/-! ## Case-insensitivity lemmas

`str.lower` maps only the letters `A`–`Z`; every character the path
functions branch on (`/`, `.`, whitespace) is fixed by it, so `splitext`,
`pathName`, `stemOfName` and `strip` all commute with lowercasing. -/

theorem char_toNat_ofNat_valid {n : Nat} (h : n.isValidChar) :
    (Char.ofNat n).toNat = n := by
  rw [Char.ofNat, dif_pos h]
  rfl

theorem toLower_eq_iff_nonletter {t : Char}
    (ht : t.toNat < 65 ∨ (90 < t.toNat ∧ t.toNat < 97) ∨ 122 < t.toNat)
    (a : Char) : (a.toLower = t) ↔ (a = t) := by
  unfold Char.toLower
  show (if a.toNat ≥ 65 ∧ a.toNat ≤ 90 then Char.ofNat (a.toNat + 32) else a) = t
    ↔ a = t
  split
  · rename_i h
    have hv : (a.toNat + 32).isValidChar := Or.inl (by omega)
    have he : (Char.ofNat (a.toNat + 32)).toNat = a.toNat + 32 :=
      char_toNat_ofNat_valid hv
    refine ⟨fun hEq => ?_, fun hEq => ?_⟩ <;> exfalso
    · have h2 := congrArg Char.toNat hEq
      rw [he] at h2
      omega
    · have h2 := congrArg Char.toNat hEq
      omega
  · exact Iff.rfl

theorem beq_toLower_nonletter {t : Char}
    (ht : t.toNat < 65 ∨ (90 < t.toNat ∧ t.toNat < 97) ∨ 122 < t.toNat)
    (c : Char) : (c.toLower == t) = (c == t) := by
  by_cases h : c = t
  · subst h
    have hfix : c.toLower = c := (toLower_eq_iff_nonletter ht c).mpr rfl
    rw [hfix]
  · have h2 : ¬(c.toLower = t) := fun he => h ((toLower_eq_iff_nonletter ht c).mp he)
    rw [beq_eq_false_iff_ne.mpr h, beq_eq_false_iff_ne.mpr h2]

theorem isSlash_comp_toLower :
    ((fun c : Char => !(c == '/')) ∘ Char.toLower) = fun c : Char => !(c == '/') := by
  funext c
  simp only [Function.comp_apply]
  rw [beq_toLower_nonletter (by decide) c]

theorem isDot_comp_toLower :
    ((fun c : Char => !(c == '.')) ∘ Char.toLower) = fun c : Char => !(c == '.') := by
  funext c
  simp only [Function.comp_apply]
  rw [beq_toLower_nonletter (by decide) c]

theorem pyIsSpace_toLower (c : Char) : pyIsSpace c.toLower = pyIsSpace c := by
  unfold pyIsSpace
  rw [beq_toLower_nonletter (by decide) c, beq_toLower_nonletter (by decide) c,
    beq_toLower_nonletter (by decide) c, beq_toLower_nonletter (by decide) c,
    beq_toLower_nonletter (by decide) c, beq_toLower_nonletter (by decide) c]

theorem pyIsSpace_comp_toLower : (pyIsSpace ∘ Char.toLower) = pyIsSpace := by
  funext c
  exact pyIsSpace_toLower c

theorem toLower_dot : Char.toLower '.' = '.' := rfl

theorem splitext_pyLower (p : Str) :
    splitext (pyLower p) = (pyLower (splitext p).1, pyLower (splitext p).2) := by
  simp only [splitext]
  simp only [pyLower, ← List.map_reverse, List.takeWhile_map, isSlash_comp_toLower,
    isDot_comp_toLower, List.length_map, ← List.map_drop, List.any_map]
  by_cases h1 : ((p.reverse.takeWhile (fun c => !(c == '/'))).takeWhile
      (fun c => !(c == '.'))).length
      = (p.reverse.takeWhile (fun c => !(c == '/'))).length
  · simp [h1]
  · by_cases h2 : ((p.reverse.takeWhile (fun c => !(c == '/'))).drop
        (((p.reverse.takeWhile (fun c => !(c == '/'))).takeWhile
          (fun c => !(c == '.'))).length + 1)).any (fun c => !(c == '.')) = true
    · simp [h1, h2, List.map_append, List.map_reverse, toLower_dot]
    · simp [h1, h2]

theorem splitOnSlash_pyLower (p : Str) :
    splitOnSlash (pyLower p) = (splitOnSlash p).map pyLower := by
  induction p with
  | nil => rfl
  | cons c cs ih =>
    cases h : splitOnSlash cs with
    | nil =>
      have ih' : splitOnSlash (List.map Char.toLower cs) = [] := by
        simpa [pyLower, h] using ih
      simp [splitOnSlash, pyLower, ih', h]
    | cons r rs =>
      have ih' : splitOnSlash (List.map Char.toLower cs)
          = List.map Char.toLower r :: List.map pyLower rs := by
        simpa [pyLower, h] using ih
      by_cases hc : c = '/'
      · subst hc
        simp [splitOnSlash, pyLower, ih', h, (by rfl : Char.toLower '/' = '/')]
      · have hb : Char.toLower c ≠ '/' :=
          fun he => hc ((toLower_eq_iff_nonletter (by decide) c).mp he)
        simp [splitOnSlash, pyLower, ih', h, hb, hc]

theorem beq_singleton_dot_pyLower (c : Str) : (pyLower c == ['.']) = (c == ['.']) := by
  by_cases h : c = ['.']
  · subst h; rfl
  · have h2 : pyLower c ≠ ['.'] := by
      intro he
      apply h
      cases c with
      | nil => simp [pyLower] at he
      | cons a l =>
        simp only [pyLower, List.map_cons, List.cons.injEq] at he
        obtain ⟨ha, hl⟩ := he
        have ha' : a = '.' := (toLower_eq_iff_nonletter (by decide) a).mp ha
        have hl' : l = [] := by simpa using hl
        simp [ha', hl']
    rw [beq_eq_false_iff_ne.mpr h, beq_eq_false_iff_ne.mpr h2]

theorem namePred_comp_pyLower :
    ((fun c : Str => !(c.isEmpty) && !(c == ['.'])) ∘ pyLower)
      = fun c : Str => !(c.isEmpty) && !(c == ['.']) := by
  funext c
  simp only [Function.comp_apply]
  rw [beq_singleton_dot_pyLower]
  cases c <;> rfl

theorem pathName_pyLower (p : Str) :
    pathName (pyLower p) = pyLower (pathName p) := by
  unfold pathName
  rw [splitOnSlash_pyLower, List.filter_map, namePred_comp_pyLower,
    List.getLast?_map]
  cases ((splitOnSlash p).filter
      (fun c => !(c.isEmpty) && !(c == ['.']))).getLast? with
  | none => rfl
  | some x => rfl

theorem stemOfName_pyLower (name : Str) :
    stemOfName (pyLower name) = pyLower (stemOfName name) := by
  simp only [stemOfName]
  simp only [pyLower, ← List.map_reverse, List.takeWhile_map, isDot_comp_toLower,
    List.length_map, ← List.map_drop]
  by_cases h1 : (name.reverse.takeWhile (fun c => !(c == '.'))).length
      = name.length
  · simp [h1]
  · by_cases h2 : (name.reverse.takeWhile (fun c => !(c == '.'))).length = 0
    · simp [h1, h2]
    · by_cases h3 : (name.reverse.takeWhile (fun c => !(c == '.'))).length + 1
          = name.length
      · simp [h1, h2, h3]
      · simp [h1, h2, h3, List.map_reverse]

theorem pathStem_pyLower (p : Str) :
    pathStem (pyLower p) = pyLower (pathStem p) := by
  unfold pathStem
  rw [pathName_pyLower, stemOfName_pyLower]

theorem pyStrip_pyLower (s : Str) : pyStrip (pyLower s) = pyLower (pyStrip s) := by
  simp only [pyStrip, pyLower, List.dropWhile_map, pyIsSpace_comp_toLower,
    ← List.map_reverse]

/-- **C10** Extension validation is case-insensitive: two filenames with the
same lowercasing get identical `validate_extension` outcomes for every
allow-set, because the extension is lowercased before the membership test;
in particular upload-evm accepts `X.SOL`. -/
theorem validate_extension_case_insensitive :
    (∀ (f g : Str) (allowed : List Str), pyLower f = pyLower g →
      validate_extension f allowed = validate_extension g allowed)
  ∧ (∀ (env : RemoteEnv) (fl : List (Str × Str)) (fs : FS) (c : List Nat),
      (upload_evm_contract ⟨"X.SOL".data, c⟩ env fl fs).2.2.isOk = true) := by
  constructor
  · intro f g allowed h
    have key : ∀ t : Str, pyLower (splitext t).2 = (splitext (pyLower t)).2 := by
      intro t
      rw [splitext_pyLower]
    unfold validate_extension
    rw [key f, h, ← key g]
  · intro env fl fs c
    rfl

/-- Witness for `validate_extension_case_insensitive` at `A.Sol`/`a.soL`. -/
theorem validate_extension_case_insensitive_witness :
    pyLower "A.Sol".data = pyLower "a.soL".data
  ∧ validate_extension "A.Sol".data ALLOWED_EVM_EXTENSIONS
      = validate_extension "a.soL".data ALLOWED_EVM_EXTENSIONS
  ∧ (upload_evm_contract ⟨"X.SOL".data, []⟩ envNull [] fsEmpty).2.2.isOk = true :=
  ⟨by decide,
   validate_extension_case_insensitive.1 "A.Sol".data "a.soL".data
     ALLOWED_EVM_EXTENSIONS (by decide),
   validate_extension_case_insensitive.2 envNull [] fsEmpty []⟩

/-! ## Whitespace behaviour of the report-name derivation -/

theorem wsChar_props {c : Char} (h : pyIsSpace c = true) :
    ¬(c = '/') ∧ ¬(c = '.') := by
  simp [pyIsSpace] at h
  rcases h with ((((h | h) | h) | h) | h) | h <;> subst h <;>
    exact ⟨by decide, by decide⟩

theorem splitOnSlash_no_slash :
    ∀ l : Str, (∀ x ∈ l, ¬(x = '/')) → splitOnSlash l = [l]
  | [], _ => rfl
  | c :: cs, h => by
    have ih := splitOnSlash_no_slash cs (fun x hx => h x (List.mem_cons_of_mem c hx))
    have hc : ¬(c = '/') := h c (List.mem_cons_self c cs)
    simp [splitOnSlash, ih, hc]

theorem pathName_no_slash (l : Str) (h : ∀ x ∈ l, ¬(x = '/'))
    (h2 : l ≠ []) (h3 : l ≠ ['.']) : pathName l = l := by
  unfold pathName
  rw [splitOnSlash_no_slash l h]
  have hE : l.isEmpty = false := by simp [List.isEmpty_iff, h2]
  have hB : (l == ['.']) = false := beq_eq_false_iff_ne.mpr h3
  simp [List.filter, hE, hB]

theorem takeWhile_no_dot_append :
    ∀ (a : Str) (b : Str), (∀ x ∈ a, ¬(x = '.')) →
      (a ++ '.' :: b).takeWhile (fun c => !(c == '.')) = a
  | [], b, _ => by simp [List.takeWhile_cons]
  | x :: xs, b, ha => by
    have hx : ¬(x = '.') := ha x (List.mem_cons_self x xs)
    have ih := takeWhile_no_dot_append xs b
      (fun y hy => ha y (List.mem_cons_of_mem x hy))
    simp [List.takeWhile_cons, hx, ih]

theorem drop_append_cons (a b : Str) :
    (a ++ '.' :: b).drop (a.length + 1) = b := by
  have h1 : a ++ '.' :: b = (a ++ ['.']) ++ b := by simp
  have h2 : (a ++ ['.']).length = a.length + 1 := by simp
  rw [h1, ← h2, List.drop_left]

theorem dropWhile_ws_append :
    ∀ (u s : Str), (∀ x ∈ u, pyIsSpace x = true) →
      (u ++ s).dropWhile pyIsSpace = s.dropWhile pyIsSpace
  | [], s, _ => rfl
  | x :: xs, s, hu => by
    have ih := dropWhile_ws_append xs s
      (fun y hy => hu y (List.mem_cons_of_mem x hy))
    simp [List.dropWhile_cons, hu x (List.mem_cons_self x xs), ih]

theorem pyStrip_ws_append (u s : Str) (hu : ∀ x ∈ u, pyIsSpace x = true) :
    pyStrip (u ++ s) = pyStrip s := by
  unfold pyStrip
  rw [dropWhile_ws_append u s hu]

theorem stemOfName_pad (s tail u v : Str)
    (hs : s ≠ []) (ht : tail ≠ [])
    (htd : ∀ x ∈ tail, ¬(x = '.'))
    (hvw : ∀ x ∈ v, pyIsSpace x = true) :
    stemOfName (u ++ s ++ '.' :: tail ++ v) = u ++ s := by
  have hvd : ∀ x ∈ v, ¬(x = '.') := fun x hx => (wsChar_props (hvw x hx)).2
  simp only [stemOfName]
  have hrev : (u ++ s ++ '.' :: tail ++ v).reverse
      = (v.reverse ++ tail.reverse) ++ '.' :: (s.reverse ++ u.reverse) := by
    simp
  rw [hrev]
  have hA : ∀ x ∈ v.reverse ++ tail.reverse, ¬(x = '.') := by
    intro x hx
    rcases List.mem_append.mp hx with h | h
    · exact hvd x (List.mem_reverse.mp h)
    · exact htd x (List.mem_reverse.mp h)
  rw [takeWhile_no_dot_append _ _ hA]
  have hslen : 0 < s.length := List.length_pos.mpr hs
  have htlen : 0 < tail.length := List.length_pos.mpr ht
  have c1 : ¬((v.reverse ++ tail.reverse).length
      = ((v.reverse ++ tail.reverse) ++ '.' :: (s.reverse ++ u.reverse)).length) := by
    simp only [List.length_append, List.length_reverse, List.length_cons]
    omega
  have c2 : ¬((v.reverse ++ tail.reverse).length = 0) := by
    simp only [List.length_append, List.length_reverse]
    omega
  have c3 : ¬((v.reverse ++ tail.reverse).length + 1
      = ((v.reverse ++ tail.reverse) ++ '.' :: (s.reverse ++ u.reverse)).length) := by
    simp only [List.length_append, List.length_reverse, List.length_cons]
    omega
  rw [if_neg c1, if_neg c2, if_neg c3, drop_append_cons]
  simp

theorem reportFilename_pad (s tail u v : Str)
    (hs : s ≠ []) (ht : tail ≠ [])
    (htd : ∀ x ∈ tail, ¬(x = '.'))
    (hsl : ∀ x ∈ s, ¬(x = '/'))
    (htl : ∀ x ∈ tail, ¬(x = '/'))
    (hu : ∀ x ∈ u, pyIsSpace x = true)
    (hv : ∀ x ∈ v, pyIsSpace x = true) :
    reportFilename (u ++ s ++ '.' :: tail ++ v)
      = reportFilename (s ++ '.' :: tail) := by
  have hus : ∀ x ∈ u, ¬(x = '/') := fun x hx => (wsChar_props (hu x hx)).1
  have hvs : ∀ x ∈ v, ¬(x = '/') := fun x hx => (wsChar_props (hv x hx)).1
  have hslen : 0 < s.length := List.length_pos.mpr hs
  have htlen : 0 < tail.length := List.length_pos.mpr ht
  have hns1 : ∀ x ∈ u ++ s ++ '.' :: tail ++ v, ¬(x = '/') := by
    intro x hx
    simp only [List.mem_append, List.mem_cons] at hx
    rcases hx with ((h | h) | h | h) | h
    · exact hus x h
    · exact hsl x h
    · subst h; decide
    · exact htl x h
    · exact hvs x h
  have hns2 : ∀ x ∈ s ++ '.' :: tail, ¬(x = '/') := by
    intro x hx
    simp only [List.mem_append, List.mem_cons] at hx
    rcases hx with h | h | h
    · exact hsl x h
    · subst h; decide
    · exact htl x h
  have hlen1 : (u ++ s ++ '.' :: tail ++ v).length
      = u.length + (s.length + (tail.length + 1 + v.length)) := by
    simp only [List.length_append, List.length_cons]
    omega
  have hne1 : (u ++ s ++ '.' :: tail ++ v) ≠ [] := by
    intro h
    have h' := congrArg List.length h
    rw [hlen1] at h'
    simp at h'
  have hdot1 : (u ++ s ++ '.' :: tail ++ v) ≠ ['.'] := by
    intro h
    have h' := congrArg List.length h
    rw [hlen1] at h'
    simp at h'
    omega
  have hlen2 : (s ++ '.' :: tail).length = s.length + (tail.length + 1) := by
    simp only [List.length_append, List.length_cons]
  have hne2 : (s ++ '.' :: tail) ≠ [] := by
    intro h
    have h' := congrArg List.length h
    rw [hlen2] at h'
    simp at h'
  have hdot2 : (s ++ '.' :: tail) ≠ ['.'] := by
    intro h
    have h' := congrArg List.length h
    rw [hlen2] at h'
    simp at h'
    omega
  unfold reportFilename pathStem
  rw [pathName_no_slash _ hns1 hne1 hdot1, pathName_no_slash _ hns2 hne2 hdot2,
    stemOfName_pad s tail u v hs ht htd hv]
  have h2 : stemOfName (s ++ '.' :: tail) = s := by
    have h3 := stemOfName_pad s tail [] [] hs ht htd (by intro x hx; cases hx)
    simpa using h3
  rw [h2, pyStrip_ws_append u s hu]

/-- **C2 (counterexample)** Adding a leading space to `.sol` changes the
derived report filename: `.sol` is a suffix-less hidden-file name with
stem `.sol`, while ` .sol` has stem ` `, stripped to the empty base. -/
theorem report_name_changes_under_leading_space :
    " .sol".data = ' ' :: ".sol".data
  ∧ reportFilename " .sol".data ≠ reportFilename ".sol".data := by
  constructor
  · rfl
  · decide

/-- **C2 (amended)** Every handler derives the report name by the same pure
function `Path(filename).stem.strip().lower() + "-report.md"`; the result
is unchanged by letter case, and whitespace around the base name (before a
real extension) is stripped — but whitespace around the whole filename can
change which dot counts as the extension separator. -/
theorem report_name_derivation_shared :
    (∀ f : Str, reportFilename f
        = pyLower (pyStrip (pathStem f)) ++ "-report.md".data)
  ∧ (∀ (f : Str) (env : RemoteEnv), (get_test_results f env).1
        = [Event.fetchReport (reportFilename f) "evm".data])
  ∧ (∀ (f : Str) (env : RemoteEnv), (get_non_evm_test_results f env).1
        = [Event.fetchReport (reportFilename f) "non-evm".data])
  ∧ (∀ (cf : UploadFileM) (env : RemoteEnv) (fl : List (Str × Str)) (fs : FS),
      (upload_evm_contract cf env fl fs).2.2.isOk = true →
      (upload_evm_contract cf env fl fs).2.1.getLast?
        = some (Event.fetchReport (reportFilename cf.filename) "evm".data))
  ∧ (∀ (cf : UploadFileM) (env : RemoteEnv) (fl : List (Str × Str)) (fs : FS),
      (upload_non_evm_contract cf env fl fs).2.2.isOk = true →
      (upload_non_evm_contract cf env fl fs).2.1.getLast?
        = some (Event.fetchReport (reportFilename cf.filename) "non-evm".data))
  ∧ (∀ f g : Str, pyLower f = pyLower g → reportFilename f = reportFilename g)
  ∧ (∀ s tail u v : Str, s ≠ [] → tail ≠ [] →
      (∀ x ∈ tail, ¬(x = '.')) → (∀ x ∈ s, ¬(x = '/')) →
      (∀ x ∈ tail, ¬(x = '/')) →
      (∀ x ∈ u, pyIsSpace x = true) → (∀ x ∈ v, pyIsSpace x = true) →
      reportFilename (u ++ s ++ '.' :: tail ++ v)
        = reportFilename (s ++ '.' :: tail)) := by
  refine ⟨fun _ => rfl, fun _ _ => rfl, fun _ _ => rfl, ?_, ?_, ?_,
    reportFilename_pad⟩
  · intro cf env fl fs hOk
    rcases hv : validate_extension cf.filename ALLOWED_EVM_EXTENSIONS with e | e
    · have hbad : upload_evm_contract cf env fl fs = (fs, [], Except.error e) := by
        simp [upload_evm_contract, hv]
      rw [hbad] at hOk
      simp [Except.isOk, Except.toBool] at hOk
    · have hgood : (upload_evm_contract cf env fl fs).2.1
          = [Event.cleanup (pyLower (pyStrip (pathStem cf.filename))) "evm".data,
             Event.readFile cf.filename,
             Event.remoteUpload cf.content cf.filename "evm".data,
             Event.triggerTest cf.filename "evm".data,
             Event.fetchReport (reportFilename cf.filename) "evm".data] := by
        simp [upload_evm_contract, hv, reportFilename]
      rw [hgood]
      rfl
  · intro cf env fl fs hOk
    rcases hv : validate_extension cf.filename ALLOWED_NON_EVM_EXTENSIONS with e | e
    · have hbad : upload_non_evm_contract cf env fl fs
          = (fs, [], Except.error e) := by
        simp [upload_non_evm_contract, hv]
      rw [hbad] at hOk
      simp [Except.isOk, Except.toBool] at hOk
    · have hgood : (upload_non_evm_contract cf env fl fs).2.1
          = [Event.cleanup (pyLower (pyStrip (pathStem cf.filename))) "non-evm".data,
             Event.readFile cf.filename,
             Event.remoteUpload cf.content cf.filename "non-evm".data,
             Event.triggerTest cf.filename "non-evm".data,
             Event.fetchReport (reportFilename cf.filename) "non-evm".data] := by
        simp [upload_non_evm_contract, hv, reportFilename]
      rw [hgood]
      rfl
  · intro f g h
    have key : ∀ t : Str, pyLower (pyStrip (pathStem t))
        = pyStrip (pathStem (pyLower t)) := by
      intro t
      rw [pathStem_pyLower, pyStrip_pyLower]
    unfold reportFilename
    rw [key f, h, ← key g]

/-- Witness for `report_name_derivation_shared`: case invariance at
`A.SOL`/`a.sol`, padding invariance at `" b.sol "`, and the fetch event of
an accepted upload of `a.sol`. -/
theorem report_name_derivation_shared_witness :
    reportFilename "A.SOL".data = reportFilename "a.sol".data
  ∧ reportFilename (" ".data ++ "b".data ++ '.' :: "sol".data ++ " ".data)
      = reportFilename ("b".data ++ '.' :: "sol".data)
  ∧ (upload_evm_contract ⟨"a.sol".data, []⟩ envNull [] fsEmpty).2.1.getLast?
      = some (Event.fetchReport (reportFilename "a.sol".data) "evm".data) :=
  ⟨report_name_derivation_shared.2.2.2.2.2.1 "A.SOL".data "a.sol".data (by decide),
   report_name_derivation_shared.2.2.2.2.2.2 "b".data "sol".data " ".data " ".data
     (by decide) (by decide) (by decide) (by decide) (by decide) (by decide)
     (by decide),
   report_name_derivation_shared.2.2.2.1 ⟨"a.sol".data, []⟩ envNull [] fsEmpty rfl⟩

end TemBackend
